import Mathlib

/-!
A shallow embedding of the synchronization core of `screen-query`
(`src/providers/ScreenQueryProvider.tsx`) and proofs about it.

The provider's three `useRef` maps (`queriesRef`, `observersRef`,
`queryPromiseRef`) become explicit state; JavaScript `Map`s become
insertion-ordered association lists; the external TanStack query engine
becomes a function from serialized query keys to cache cells; promises
become records carrying an allocation id (modelling referential identity)
together with the observer list whose settlement they await.
-/

namespace ScreenQuery

/-- Serialized query-key strings, used as map keys everywhere. -/
abbrev KeyStr := String

/-- A query identity: an ordered sequence of primitive values, modelled as
strings, mirroring a TanStack `QueryKey` array. -/
abbrev QueryIdentity := List String

/-- Underlying query status in the external engine (`query.state.status`). -/
inductive QStatus
| pending
| success
| error
deriving DecidableEq, Repr

/-- One cache cell of the external query/cache engine at one serialized key:
whether an entry exists in the query cache (`getQueryCache().find` succeeds),
its opaque fetch options, its state, whether a fetch is in flight, its cached
data and its error value (meaningful only in `error` state, since TanStack
exposes a non-null error exactly in that state). -/
structure EngineCell where
  cached : Bool := false
  options : Nat := 0
  status : QStatus := QStatus.pending
  fetching : Bool := false
  data : Option Nat := none
  errVal : String := ""
deriving DecidableEq, Repr

/-- The external query/cache engine, read at serialized keys. -/
abbrev Engine := KeyStr → EngineCell

/-- `getQueryKeyString`: `JSON.stringify` of the query-key array (string
elements; no escaping is modelled). -/
def getQueryKeyString (k : QueryIdentity) : KeyStr :=
  "[" ++ String.intercalate "," (k.map (fun s => "\x22" ++ s ++ "\x22")) ++ "]"

/-- The `ScreenQuery` shape of the source: an object carrying a query key. -/
structure SQuery where
  queryKey : QueryIdentity
deriving DecidableEq, Repr

/-- A `ScreenQueryResult` as presented by the caller: a query result object
tagged with its query key. Only the fields the engine reads are modelled:
`queryKey` (registration and key generation), `isError` and `error`
(error aggregation) and `data` (the returned payload). -/
structure SQResult where
  queryKey : QueryIdentity
  isError : Bool := false
  error : Option String := none
  data : Option Nat := none
deriving DecidableEq, Repr

/-- The `ScreenQuery` view of a presented result (structural subtyping in the
source: a result is passed where a `ScreenQuery` is expected). -/
def SQResult.toQuery (r : SQResult) : SQuery :=
  { queryKey := r.queryKey }

/-- Options a `QueryObserver` is constructed with:
`{...existingQuery?.options, queryKey}` becomes the optional inherited
configuration plus the query key supplied by the caller. -/
structure ObserverOptions where
  inherited : Option Nat
  queryKey : QueryIdentity
deriving DecidableEq, Repr

/-- The fetch configuration carried by a presented result itself: a raw
`ScreenQuery` carries nothing but its query key, so this is the options
object `new QueryObserver` receives when the engine has no cached entry. -/
def resultCarriedConfig (qk : QueryIdentity) : ObserverOptions :=
  { inherited := none, queryKey := qk }

/-- A `QueryObserver` instance: `id` models the referential identity of the
allocated object, `key` the serialized key it watches, `options` the options
it was constructed with. -/
structure Observer where
  id : Nat
  key : KeyStr
  options : ObserverOptions
deriving DecidableEq, Repr

/-- The snapshot returned by `observer.getCurrentResult()`. -/
structure ObsResult where
  isLoading : Bool
  isPending : Bool
  isSuccess : Bool
  isError : Bool
  error : Option String
deriving DecidableEq, Repr

/-- `observer.getCurrentResult()`: derived from the engine cell at the
observer's key. TanStack v5 sets `isPending` iff the status is `pending`,
`isLoading = isPending && isFetching`, and exposes a non-null `error`
exactly in `error` state. -/
def getCurrentResult (engine : Engine) (o : Observer) : ObsResult :=
  let c := engine o.key
  { isLoading := decide (c.status = QStatus.pending) && c.fetching
    isPending := decide (c.status = QStatus.pending)
    isSuccess := decide (c.status = QStatus.success)
    isError := decide (c.status = QStatus.error)
    error := if c.status = QStatus.error then some c.errVal else none }

/-- `createObserver`: look up the existing cache entry for the exact key and
spread its options; the query key always comes from the passed query. -/
def createObserver (engine : Engine) (qk : QueryIdentity) (freshId : Nat) :
    Observer :=
  let ks := getQueryKeyString qk
  let c := engine ks
  { id := freshId
    key := ks
    options :=
      { inherited := if c.cached then some c.options else none
        queryKey := qk } }

/-- `checkLoadingState`: true if any observer reports loading or pending. -/
def checkLoadingState (engine : Engine) (observers : List Observer) : Bool :=
  observers.any fun observer =>
    let result := getCurrentResult engine observer
    result.isLoading || result.isPending

/-- Lexicographic comparison of character lists by code point, modelling
JavaScript's default string comparison (code-unit order; the keys here are
ASCII, where the two coincide). -/
def charListLe : List Char → List Char → Bool
  | [], _ => true
  | _ :: _, [] => false
  | a :: as, b :: bs =>
    if a.val.toNat < b.val.toNat then true
    else if b.val.toNat < a.val.toNat then false
    else charListLe as bs

/-- String comparison used by the model of `Array.prototype.sort`. -/
def strLe (a b : String) : Bool :=
  charListLe a.data b.data

/-- Insert a string into a sorted list (helper for the model of
JavaScript's default `Array.prototype.sort`). -/
def insertSorted (s : String) : List String → List String
  | [] => [s]
  | a :: t => if strLe s a then s :: a :: t else a :: insertSorted s t

/-- Insertion sort on strings, modelling JavaScript's default
lexicographic `Array.prototype.sort`. -/
def sortStrings : List String → List String
  | [] => []
  | a :: t => insertSorted a (sortStrings t)

/-- `generateQuerySetKey`: serialize each query key, sort (JavaScript default
string sort), and join with a pipe. -/
def generateQuerySetKey (queries : List QueryIdentity) : KeyStr :=
  String.intercalate "|" (sortStrings (queries.map getQueryKeyString))

/-- A combined completion promise (`createCombinedPromise`'s value): `id`
models the referential identity of the promise instance, `key` the query-set
key it is stored under, `observers` the observers whose settlement the
underlying `Promise.all` of `createObserverPromise`s awaits. -/
structure CombinedPromise where
  id : Nat
  key : KeyStr
  observers : List Observer
deriving DecidableEq, Repr

/-- `createObserverPromise(o)` resolves exactly when `o` reports
`isSuccess || isError`; this is that condition under engine state `engine`. -/
def observerSettled (engine : Engine) (o : Observer) : Bool :=
  let result := getCurrentResult engine o
  result.isSuccess || result.isError

/-- The combined promise has resolved under engine state `engine`: every
awaited observer has settled (`Promise.all` over observer promises). -/
def promiseResolved (engine : Engine) (p : CombinedPromise) : Bool :=
  p.observers.all (observerSettled engine)

/-- An insertion-ordered association map, modelling a JavaScript `Map`. -/
abbrev JsMap (α : Type) := List (KeyStr × α)

/-- `Map.prototype.get`. -/
def mapGet {α : Type} (m : JsMap α) (k : KeyStr) : Option α :=
  (m.find? (fun p => p.1 == k)).map Prod.snd

/-- `Map.prototype.set`: overwrite in place if the key exists, else append
(JavaScript `Map` preserves insertion order). -/
def mapSet {α : Type} (m : JsMap α) (k : KeyStr) (v : α) : JsMap α :=
  if m.any (fun p => p.1 == k) then
    m.map (fun p => if p.1 == k then (k, v) else p)
  else
    m ++ [(k, v)]

/-- `Map.prototype.delete`. -/
def mapDelete {α : Type} (m : JsMap α) (k : KeyStr) : JsMap α :=
  m.filter (fun p => p.1 != k)

/-- The provider's mutable state: `queries` is `queriesRef`, `observers` is
`observersRef` (the Watcher pool), `promises` is `queryPromiseRef` (the
completion coalescer). `destroyed` logs the ids of observers on which
`destroy()` has been called, and `nextId` is the allocation counter that
models referential identity of freshly constructed objects. -/
structure ProviderState where
  queries : JsMap SQuery := []
  observers : JsMap Observer := []
  promises : JsMap CombinedPromise := []
  destroyed : List Nat := []
  nextId : Nat := 0
deriving DecidableEq, Repr

/-- One element of the array returned by `registerQueriesAndObservers`. -/
structure RegEntry where
  created : Bool
  observer : Observer
deriving DecidableEq, Repr

/-- One iteration of `registerQueriesAndObservers`'s `queries.map` body:
save the query under its key string, then reuse the pooled observer for the
key or create and pool a fresh one. -/
def registerOne (engine : Engine) (st : ProviderState) (query : SQuery) :
    RegEntry × ProviderState :=
  let keyString := getQueryKeyString query.queryKey
  let st1 := { st with queries := mapSet st.queries keyString query }
  match mapGet st1.observers keyString with
  | some observer => ({ created := false, observer := observer }, st1)
  | none =>
    let observer := createObserver engine query.queryKey st1.nextId
    ({ created := true, observer := observer },
     { st1 with
        observers := mapSet st1.observers keyString observer
        nextId := st1.nextId + 1 })

/-- `registerQueriesAndObservers`: fold `registerOne` over the input in
order, collecting the per-query entries. -/
def registerQueriesAndObservers (engine : Engine) :
    ProviderState → List SQuery → List RegEntry × ProviderState
  | st, [] => ([], st)
  | st, query :: rest =>
    let r := registerOne engine st query
    let rr := registerQueriesAndObservers engine r.2 rest
    (r.1 :: rr.1, rr.2)

/-- `createCombinedPromise`: reuse the stored promise for the query-set key
of `queries` if one exists; otherwise allocate a fresh promise awaiting the
given observers and store it under that key. -/
def createCombinedPromise (st : ProviderState) (observers : List Observer)
    (queries : List QueryIdentity) : CombinedPromise × ProviderState :=
  let querySetKey := generateQuerySetKey queries
  match mapGet st.promises querySetKey with
  | some existingPromise => (existingPromise, st)
  | none =>
    let combinedPromise : CombinedPromise :=
      { id := st.nextId, key := querySetKey, observers := observers }
    (combinedPromise,
     { st with
        promises := mapSet st.promises querySetKey combinedPromise
        nextId := st.nextId + 1 })

/-- The `.then` continuation attached in `createCombinedPromise`: when the
combined promise resolves it deletes its own query-set-key entry from the
coalescer map. -/
def resolveCombinedPromise (st : ProviderState) (p : CombinedPromise) :
    ProviderState :=
  { st with promises := mapDelete st.promises p.key }

/-- `getQueryError`: first error among the observer snapshots, else first
error among the presented results (JavaScript `a?.error ?? b?.error`). -/
def getQueryError (observerResults : List ObsResult)
    (results : List SQResult) : Option String :=
  ((observerResults.find? (fun r => r.isError)).bind (fun r => r.error)).orElse
    (fun _ => (results.find? (fun q => q.isError)).bind (fun q => q.error))

/-- The outcome of one `getQueryResult` call: throw a promise (suspend),
throw an error, or return the data array. -/
inductive QueryOutcome
| suspend (p : CombinedPromise)
| raise (e : String)
| ret (ds : List (Option Nat))
deriving DecidableEq, Repr

/-- `getQueryResult`: register the presented results, then suspend if
(`suspendOnCreate` and some observer was created) or any pooled observer is
loading, throwing the combined promise over ALL pooled observers keyed by
the input identities; otherwise throw the aggregated error if any; otherwise
return the data of each input in order. -/
def getQueryResult (engine : Engine) (st : ProviderState)
    (results : List SQResult) (suspendOnCreate : Bool) :
    QueryOutcome × ProviderState :=
  let registerResult :=
    registerQueriesAndObservers engine st (results.map SQResult.toQuery)
  let observerCreated := registerResult.1.any (fun r => r.created)
  let allObservers := registerResult.2.observers.map Prod.snd
  if (suspendOnCreate && observerCreated)
      || checkLoadingState engine allObservers then
    let cp := createCombinedPromise registerResult.2 allObservers
      (results.map (fun r => r.queryKey))
    (QueryOutcome.suspend cp.1, cp.2)
  else
    let currentObservers := registerResult.1.map (fun r => r.observer)
    match getQueryError (currentObservers.map (getCurrentResult engine))
        results with
    | some error => (QueryOutcome.raise error, registerResult.2)
    | none =>
      (QueryOutcome.ret (results.map (fun r => r.data)), registerResult.2)

/-- Abbreviation for the registration step performed at the top of
`getQueryResult`: entries and post-registration state. -/
def regRes (engine : Engine) (st : ProviderState) (results : List SQResult) :
    List RegEntry × ProviderState :=
  registerQueriesAndObservers engine st (results.map SQResult.toQuery)

/-- The boolean condition under which `getQueryResult` suspends:
(`suspendOnCreate` and some observer was created this call) or some pooled
observer reports loading. -/
def suspendCond (engine : Engine) (st : ProviderState)
    (results : List SQResult) (suspendOnCreate : Bool) : Bool :=
  (suspendOnCreate && (regRes engine st results).1.any (fun r => r.created))
    || checkLoadingState engine
        ((regRes engine st results).2.observers.map Prod.snd)

/-- The process-wide notify function of the external engine's
`notifyManager`: either the suppressing no-op function or the default
`(fn) => fn()`. -/
inductive NotifyFn
| silent
| batchedDefault
deriving DecidableEq, Repr

/-- Effect model for one `queryClient.refetchQueries` call at one serialized
key: the refetch either fulfills or rejects. -/
abbrev RefetchEff := KeyStr → Except String Unit

/-- Observable side effects of `refetchQueries` in order. -/
inductive RefetchEvent
| setNotify (f : NotifyFn)
| refetch (k : KeyStr)
deriving DecidableEq, Repr

/-- `Promise.all` over per-query refetch outcomes: rejects when any of them
rejects, fulfills otherwise. -/
def promiseAll : List (Except String Unit) → Except String Unit
  | [] => Except.ok ()
  | Except.ok _ :: rest => promiseAll rest
  | Except.error e :: _ => Except.error e

/-- `refetchQueries`: set the silent notify function, refetch every query in
the registry in parallel, and restore the default notify function in a
`finally` block, so the restoring event is emitted whether or not the
combined refetch rejected; the rejection (if any) then propagates. -/
def refetchQueries (st : ProviderState) (eff : RefetchEff) :
    Except String Unit × List RefetchEvent :=
  let queries := st.queries.map Prod.snd
  let keys := queries.map (fun q => getQueryKeyString q.queryKey)
  (promiseAll (keys.map eff),
   RefetchEvent.setNotify NotifyFn.silent
     :: keys.map RefetchEvent.refetch
     ++ [RefetchEvent.setNotify NotifyFn.batchedDefault])

/-- The notify function in force after a list of events has been processed
(the engine's initial notify function is the default one). -/
def notifyAfter (events : List RefetchEvent) : NotifyFn :=
  events.foldl
    (fun s e =>
      match e with
      | RefetchEvent.setNotify f => f
      | RefetchEvent.refetch _ => s)
    NotifyFn.batchedDefault

/-- The `status` argument of `clearCache`. -/
inductive ClearCacheStatus
| error
| all
deriving DecidableEq, Repr

/-- `status === 'all' || query.state.status === status`. -/
def matchesStatus (s : ClearCacheStatus) (q : QStatus) : Bool :=
  match s with
  | ClearCacheStatus.all => true
  | ClearCacheStatus.error => decide (q = QStatus.error)

/-- `queryClient.resetQueries` at one key: the cache entry returns to its
initial state (entry and options kept, status pending, no data, no error,
no fetch in flight). -/
def resetCell (c : EngineCell) : EngineCell :=
  { c with
      status := QStatus.pending
      fetching := false
      data := none
      errVal := "" }

/-- `clearCache`: snapshot the underlying query state of every pooled
observer and keep the keys matching `status`; destroy every pooled observer
and empty the pool unconditionally (`queriesRef` is deliberately not
cleared); then reset the underlying cache entries of the filtered keys.
Returns the new provider state, the new engine state, and the list of keys
that were reset. -/
def clearCache (engine : Engine) (st : ProviderState)
    (status : ClearCacheStatus) :
    ProviderState × Engine × List KeyStr :=
  let pooled := st.observers.map Prod.snd
  let resetKeys := pooled.filterMap fun observer =>
    if matchesStatus status (engine observer.key).status then
      some observer.key
    else
      none
  let st1 :=
    { st with
        observers := []
        destroyed := st.destroyed ++ pooled.map (fun o => o.id) }
  let engine1 : Engine := fun k =>
    if resetKeys.contains k then resetCell (engine k) else engine k
  (st1, engine1, resetKeys)

/-!  Concrete engine states and provider states used by witnesses and
counterexamples: identity `x` is a settled (successful) cached query,
identity `y` is pending. -/

/-- Identity of the settled query `x`. -/
def qkX : QueryIdentity := ["x"]

/-- Identity of the pending query `y`. -/
def qkY : QueryIdentity := ["y"]

/-- Engine with `x` cached and successful and `y` cached and pending. -/
def engineXY : Engine := fun k =>
  if k = getQueryKeyString qkX then
    { cached := true, options := 7, status := QStatus.success
      fetching := false, data := some 10, errVal := "" }
  else if k = getQueryKeyString qkY then
    { cached := true, options := 8, status := QStatus.pending
      fetching := true, data := none, errVal := "" }
  else
    {}

/-- The presented result for `x` (successful, with data). -/
def resX : SQResult := { queryKey := qkX, data := some 10 }

/-- The presented result for `y` (still pending, no data). -/
def resY : SQResult := { queryKey := qkY }

/-- Provider state after a first call registered both `x` and `y` (and
suspended on the pending `y`, storing a completion promise for the
two-element set). -/
def stXY : ProviderState :=
  (getQueryResult engineXY {} [resX, resY] false).2

/-- The snapshots of the observers corresponding to the input identities in
input order, as inspected by `getQueryError` inside `getQueryResult`. -/
def inputObserverResults (engine : Engine) (st : ProviderState)
    (results : List SQResult) : List ObsResult :=
  ((regRes engine st results).1.map (fun r => r.observer)).map
    (getCurrentResult engine)

/-- The observer the first call on `engineXY` pools for `x`. -/
def obsX : Observer :=
  { id := 0, key := getQueryKeyString qkX
    options := { inherited := some 7, queryKey := qkX } }

/-- The observer the first call on `engineXY` pools for `y`. -/
def obsY : Observer :=
  { id := 1, key := getQueryKeyString qkY
    options := { inherited := some 8, queryKey := qkY } }

/-- The completion promise stored by the first (two-query) call on
`engineXY`. -/
def pXY : CombinedPromise :=
  { id := 2, key := generateQuerySetKey [qkX, qkY]
    observers := [obsX, obsY] }

/-- The completion promise thrown by a second call on `engineXY` that
references only the settled `x`: keyed by the input-derived set key, but
awaiting both pooled observers. -/
def pX3 : CombinedPromise :=
  { id := 3, key := generateQuerySetKey [qkX]
    observers := [obsX, obsY] }

/-- Engine with `a` cached in error state (error value `boom`) and `b`
cached and successful. -/
def engineE : Engine := fun k =>
  if k = getQueryKeyString ["a"] then
    { cached := true, options := 1, status := QStatus.error
      fetching := false, data := none, errVal := "boom" }
  else if k = getQueryKeyString ["b"] then
    { cached := true, options := 2, status := QStatus.success
      fetching := false, data := some 5, errVal := "" }
  else
    {}

/-- Presented result for `a`, itself carrying a caller-side error. -/
def resA : SQResult :=
  { queryKey := ["a"], isError := true, error := some "callerA" }

/-- Presented result for `b`, itself carrying a caller-side error. -/
def resB : SQResult :=
  { queryKey := ["b"], isError := true, error := some "callerB"
    data := some 5 }

/-- Provider state after one call on `engineE` registered `a` and `b`. -/
def stE : ProviderState :=
  (getQueryResult engineE {} [resA, resB] false).2

/-- Engine with `a` and `b` both cached and successful. -/
def engineOK : Engine := fun k =>
  if k = getQueryKeyString ["a"] then
    { cached := true, options := 1, status := QStatus.success
      fetching := false, data := some 1, errVal := "" }
  else if k = getQueryKeyString ["b"] then
    { cached := true, options := 2, status := QStatus.success
      fetching := false, data := some 2, errVal := "" }
  else
    {}

/-- Successful presented result for `a` with data `1`. -/
def rA1 : SQResult := { queryKey := ["a"], data := some 1 }

/-- Successful presented result for `b` with data `2`. -/
def rB2 : SQResult := { queryKey := ["b"], data := some 2 }

/-- Presented result for `b` whose caller-side view is an error (used to
show fallback to result-derived errors). -/
def rBerr : SQResult :=
  { queryKey := ["b"], isError := true, error := some "cerr" }

/-- A provider state with one registered query `q` (for refetch proofs). -/
def stQ : ProviderState :=
  { queries := [(getQueryKeyString ["q"], { queryKey := ["q"] })] }

/-- A refetch effect in which every refetch rejects. -/
def effFail : RefetchEff := fun _ => Except.error "net"

/-! ### Lemmas about the JavaScript map model -/

theorem find?_key_eq_none_of_mapGet_none {α : Type} {m : JsMap α} {k : KeyStr}
    (h : mapGet m k = none) : m.find? (fun p => p.1 == k) = none := by
  cases hf : m.find? (fun p => p.1 == k) with
  | none => rfl
  | some p => rw [mapGet, hf] at h; cases h

theorem any_key_eq_false_of_mapGet_none {α : Type} {m : JsMap α} {k : KeyStr}
    (h : mapGet m k = none) : m.any (fun p => p.1 == k) = false := by
  rw [Bool.eq_false_iff]
  intro hany
  rcases List.any_eq_true.mp hany with ⟨p, hp, hk⟩
  exact (List.find?_eq_none.mp (find?_key_eq_none_of_mapGet_none h) p hp) hk

theorem mapSet_of_mapGet_none {α : Type} {m : JsMap α} {k : KeyStr} {v : α}
    (h : mapGet m k = none) : mapSet m k v = m ++ [(k, v)] := by
  rw [mapSet, any_key_eq_false_of_mapGet_none h]
  simp

theorem mapGet_append {α : Type} (m l : JsMap α) (k : KeyStr) :
    mapGet (m ++ l) k = (mapGet m k).or (mapGet l k) := by
  unfold mapGet
  rw [List.find?_append]
  cases m.find? (fun p => p.1 == k) <;> simp

theorem mapGet_singleton_self {α : Type} (k : KeyStr) (v : α) :
    mapGet [(k, v)] k = some v := by
  simp [mapGet]

theorem mapGet_singleton_ne {α : Type} {k k' : KeyStr} (v : α) (h : k' ≠ k) :
    mapGet [(k, v)] k' = none := by
  have hne : (k == k') = false := by
    simp only [beq_eq_false_iff_ne, ne_eq]
    exact fun he => h he.symm
  simp [mapGet, List.find?, hne]

theorem mapGet_mapSet_none_self {α : Type} {m : JsMap α} {k : KeyStr} {v : α}
    (h : mapGet m k = none) : mapGet (mapSet m k v) k = some v := by
  rw [mapSet_of_mapGet_none h, mapGet_append, h, mapGet_singleton_self]
  rfl

theorem mapGet_mapSet_none_ne {α : Type} {m : JsMap α} {k k' : KeyStr} {v : α}
    (h : mapGet m k = none) (hne : k' ≠ k) :
    mapGet (mapSet m k v) k' = mapGet m k' := by
  rw [mapSet_of_mapGet_none h, mapGet_append, mapGet_singleton_ne v hne]
  cases mapGet m k' <;> rfl

theorem mapGet_mapDelete_self {α : Type} (m : JsMap α) (k : KeyStr) :
    mapGet (mapDelete m k) k = none := by
  have hf : (mapDelete m k).find? (fun p => p.1 == k) = none := by
    rw [List.find?_eq_none]
    intro p hp
    have hmem := List.mem_filter.mp hp
    simp only [bne_iff_ne, ne_eq] at hmem
    simp [hmem.2]
  simp [mapGet, hf]

/-! ### Lemmas about registration -/

theorem register_nil (engine : Engine) (st : ProviderState) :
    registerQueriesAndObservers engine st [] = ([], st) := rfl

theorem register_cons (engine : Engine) (st : ProviderState) (q : SQuery)
    (rest : List SQuery) :
    registerQueriesAndObservers engine st (q :: rest) =
      ((registerOne engine st q).1 ::
        (registerQueriesAndObservers engine
          (registerOne engine st q).2 rest).1,
       (registerQueriesAndObservers engine
          (registerOne engine st q).2 rest).2) := rfl

theorem registerOne_of_some {engine : Engine} {st : ProviderState}
    {query : SQuery} {ob : Observer}
    (h : mapGet st.observers (getQueryKeyString query.queryKey) = some ob) :
    registerOne engine st query =
      ({ created := false, observer := ob },
       { st with
          queries :=
            mapSet st.queries (getQueryKeyString query.queryKey) query }) := by
  unfold registerOne
  simp [h]

theorem registerOne_of_none {engine : Engine} {st : ProviderState}
    {query : SQuery}
    (h : mapGet st.observers (getQueryKeyString query.queryKey) = none) :
    registerOne engine st query =
      ({ created := true,
         observer := createObserver engine query.queryKey st.nextId },
       { st with
          queries :=
            mapSet st.queries (getQueryKeyString query.queryKey) query
          observers :=
            mapSet st.observers (getQueryKeyString query.queryKey)
              (createObserver engine query.queryKey st.nextId)
          nextId := st.nextId + 1 }) := by
  unfold registerOne
  simp [h]

theorem registerOne_key_some (engine : Engine) (st : ProviderState)
    (query : SQuery) :
    ∃ ob, mapGet ((registerOne engine st query).2).observers
      (getQueryKeyString query.queryKey) = some ob := by
  cases h : mapGet st.observers (getQueryKeyString query.queryKey) with
  | some ob => exact ⟨ob, by rw [registerOne_of_some h]; exact h⟩
  | none =>
    refine ⟨createObserver engine query.queryKey st.nextId, ?_⟩
    rw [registerOne_of_none h]
    exact mapGet_mapSet_none_self h

theorem registerOne_mapGet_observers_some {engine : Engine}
    {st : ProviderState} {query : SQuery} {k : KeyStr} {ob : Observer}
    (h : mapGet st.observers k = some ob) :
    mapGet ((registerOne engine st query).2).observers k = some ob := by
  cases hg : mapGet st.observers (getQueryKeyString query.queryKey) with
  | some ob' => rw [registerOne_of_some hg]; exact h
  | none =>
    rw [registerOne_of_none hg]
    have hne : k ≠ getQueryKeyString query.queryKey := by
      intro he
      rw [he, hg] at h
      cases h
    rw [mapGet_mapSet_none_ne hg hne]
    exact h

theorem register_mapGet_observers_some {engine : Engine} :
    ∀ (qs : List SQuery) (st : ProviderState) {k : KeyStr} {ob : Observer},
      mapGet st.observers k = some ob →
      mapGet ((registerQueriesAndObservers engine st qs).2).observers k
        = some ob
  | [], _, _, _, h => h
  | q :: rest, st, k, ob, h => by
    rw [register_cons]
    exact register_mapGet_observers_some rest _
      (registerOne_mapGet_observers_some h)

theorem register_keys_present {engine : Engine} :
    ∀ (qs : List SQuery) (st : ProviderState) (q : SQuery), q ∈ qs →
      ∃ ob, mapGet ((registerQueriesAndObservers engine st qs).2).observers
        (getQueryKeyString q.queryKey) = some ob
  | q' :: rest, st, q, hmem => by
    rw [register_cons]
    rcases List.mem_cons.mp hmem with he | hr
    · subst he
      rcases registerOne_key_some engine st q with ⟨ob, hob⟩
      exact ⟨ob, register_mapGet_observers_some rest _ hob⟩
    · exact register_keys_present rest _ q hr

theorem registerOne_promises_eq (engine : Engine) (st : ProviderState)
    (query : SQuery) :
    ((registerOne engine st query).2).promises = st.promises := by
  cases h : mapGet st.observers (getQueryKeyString query.queryKey) with
  | some ob => rw [registerOne_of_some h]
  | none => rw [registerOne_of_none h]

theorem register_promises_eq {engine : Engine} :
    ∀ (qs : List SQuery) (st : ProviderState),
      ((registerQueriesAndObservers engine st qs).2).promises = st.promises
  | [], _ => rfl
  | q :: rest, st => by
    rw [register_cons]
    rw [register_promises_eq rest]
    exact registerOne_promises_eq engine st q

theorem register_of_all_present (engine : Engine) :
    ∀ (qs : List SQuery) (st : ProviderState),
      (∀ q ∈ qs,
        (mapGet st.observers (getQueryKeyString q.queryKey)).isSome = true) →
      ((registerQueriesAndObservers engine st qs).2).observers = st.observers
      ∧ (registerQueriesAndObservers engine st qs).1.map
          (fun e => (e.created, some e.observer))
        = qs.map
            (fun q =>
              (false, mapGet st.observers (getQueryKeyString q.queryKey)))
  | [], _, _ => ⟨rfl, rfl⟩
  | q :: rest, st, h => by
    rcases Option.isSome_iff_exists.mp (h q (List.mem_cons_self q rest)) with
      ⟨ob, hob⟩
    rw [register_cons, registerOne_of_some hob]
    have hrest := register_of_all_present engine rest
      { st with
          queries := mapSet st.queries (getQueryKeyString q.queryKey) q }
      (fun q' hq' => h q' (List.mem_cons_of_mem q hq'))
    refine ⟨hrest.1, ?_⟩
    simp only [List.map_cons, hrest.2, hob]

/-! ### Lemmas about the coalescer and `getQueryResult` -/

theorem createCombinedPromise_of_some {st : ProviderState}
    {observers : List Observer} {queries : List QueryIdentity}
    {p : CombinedPromise}
    (h : mapGet st.promises (generateQuerySetKey queries) = some p) :
    createCombinedPromise st observers queries = (p, st) := by
  unfold createCombinedPromise
  simp [h]

theorem createCombinedPromise_of_none {st : ProviderState}
    {observers : List Observer} {queries : List QueryIdentity}
    (h : mapGet st.promises (generateQuerySetKey queries) = none) :
    createCombinedPromise st observers queries =
      ({ id := st.nextId, key := generateQuerySetKey queries
         observers := observers },
       { st with
          promises := mapSet st.promises (generateQuerySetKey queries)
            { id := st.nextId, key := generateQuerySetKey queries
              observers := observers }
          nextId := st.nextId + 1 }) := by
  unfold createCombinedPromise
  simp [h]

theorem createCombinedPromise_observers_eq (st : ProviderState)
    (observers : List Observer) (queries : List QueryIdentity) :
    ((createCombinedPromise st observers queries).2).observers
      = st.observers := by
  cases h : mapGet st.promises (generateQuerySetKey queries) with
  | some p => rw [createCombinedPromise_of_some h]
  | none => rw [createCombinedPromise_of_none h]

theorem getQueryResult_eq_if (engine : Engine) (st : ProviderState)
    (results : List SQResult) (suspendOnCreate : Bool) :
    getQueryResult engine st results suspendOnCreate =
      if suspendCond engine st results suspendOnCreate then
        (QueryOutcome.suspend
          (createCombinedPromise (regRes engine st results).2
            ((regRes engine st results).2.observers.map Prod.snd)
            (results.map (fun r => r.queryKey))).1,
         (createCombinedPromise (regRes engine st results).2
            ((regRes engine st results).2.observers.map Prod.snd)
            (results.map (fun r => r.queryKey))).2)
      else
        match getQueryError
            (((regRes engine st results).1.map (fun r => r.observer)).map
              (getCurrentResult engine)) results with
        | some error => (QueryOutcome.raise error, (regRes engine st results).2)
        | none =>
          (QueryOutcome.ret (results.map (fun r => r.data)),
           (regRes engine st results).2) := rfl

theorem getQueryResult_observers_eq (engine : Engine) (st : ProviderState)
    (results : List SQResult) (suspendOnCreate : Bool) :
    ((getQueryResult engine st results suspendOnCreate).2).observers
      = ((regRes engine st results).2).observers := by
  rw [getQueryResult_eq_if]
  split
  · exact createCombinedPromise_observers_eq ..
  · split <;> rfl

/-! ### Claim theorems -/

/-- Claim C1: a `getQueryResult` call suspends (throws the shared completion
promise) if and only if either `suspendOnCreate` is true and some input
identity's observer was newly created during this call, or some observer
anywhere in the post-registration pool — which contains every observer
registered by earlier calls, whatever this call's input — currently reports
loading or pending status. -/
theorem getQueryResult_suspends_iff (engine : Engine) (st : ProviderState)
    (results : List SQResult) (suspendOnCreate : Bool) :
    (∃ p, (getQueryResult engine st results suspendOnCreate).1
        = QueryOutcome.suspend p)
    ↔ ((suspendOnCreate = true
          ∧ ∃ en ∈ (regRes engine st results).1, en.created = true)
        ∨ ∃ ob ∈ (regRes engine st results).2.observers.map Prod.snd,
            ((getCurrentResult engine ob).isLoading
              || (getCurrentResult engine ob).isPending) = true) := by
  have hcond : suspendCond engine st results suspendOnCreate = true ↔
      ((suspendOnCreate = true
          ∧ ∃ en ∈ (regRes engine st results).1, en.created = true)
        ∨ ∃ ob ∈ (regRes engine st results).2.observers.map Prod.snd,
            ((getCurrentResult engine ob).isLoading
              || (getCurrentResult engine ob).isPending) = true) := by
    simp [suspendCond, checkLoadingState, Bool.or_eq_true, Bool.and_eq_true,
      List.any_eq_true]
  rw [getQueryResult_eq_if]
  by_cases h : suspendCond engine st results suspendOnCreate = true
  · rw [if_pos h]
    exact ⟨fun _ => hcond.mp h, fun _ => ⟨_, rfl⟩⟩
  · rw [if_neg h]
    constructor
    · rintro ⟨p, hp⟩
      cases hge : getQueryError
          (((regRes engine st results).1.map (fun r => r.observer)).map
            (getCurrentResult engine)) results with
      | some e => rw [hge] at hp; simp at hp
      | none => rw [hge] at hp; simp at hp
    · intro hr
      exact absurd (hcond.mpr hr) h

/-- Witness for C1: a call referencing only the settled query `x` still
suspends because the unrelated pooled query `y` is pending. -/
theorem getQueryResult_suspends_iff_witness :
    ∃ p, (getQueryResult engineXY stXY [resX] false).1
      = QueryOutcome.suspend p := by
  apply (getQueryResult_suspends_iff engineXY stXY [resX] false).mpr
  right
  exact ⟨obsY, by decide, by decide⟩

/-- Claim C2: registration is idempotent — a second `getQueryResult` call
with the unchanged input set leaves the pool exactly as the first call left
it (so its size is unchanged), and every registration entry of the second
call reports `created = false` and carries precisely the observer already
pooled under its identity's key. -/
theorem getQueryResult_registration_idempotent (engine : Engine)
    (st : ProviderState) (results : List SQResult) (suspendOnCreate : Bool) :
    ((getQueryResult engine
        ((getQueryResult engine st results suspendOnCreate).2)
        results suspendOnCreate).2).observers
      = ((getQueryResult engine st results suspendOnCreate).2).observers
    ∧ (regRes engine ((getQueryResult engine st results suspendOnCreate).2)
          results).1.map (fun e => (e.created, some e.observer))
      = results.map (fun r =>
          (false,
           mapGet
             ((getQueryResult engine st results suspendOnCreate).2).observers
             (getQueryKeyString r.queryKey))) := by
  have h1 := getQueryResult_observers_eq engine st results suspendOnCreate
  have hpresent : ∀ q ∈ results.map SQResult.toQuery,
      (mapGet ((getQueryResult engine st results suspendOnCreate).2).observers
        (getQueryKeyString q.queryKey)).isSome = true := by
    intro q hq
    rw [h1]
    simp only [regRes]
    rcases register_keys_present (results.map SQResult.toQuery) st q hq with
      ⟨ob, hob⟩
    rw [hob]
    rfl
  have happ := register_of_all_present engine (results.map SQResult.toQuery)
    ((getQueryResult engine st results suspendOnCreate).2) hpresent
  constructor
  · rw [getQueryResult_observers_eq]
    simp only [regRes]
    exact happ.1
  · simp only [regRes]
    rw [happ.2, List.map_map]
    rfl

/-- Claim C3: while a completion promise for a query-set key is stored,
every further acquisition for that key returns the referentially identical
promise instance and leaves the state untouched (no new promise is
allocated); the promise's resolution continuation removes its own entry
from the coalescer map, after which an acquisition for the same key
allocates a fresh promise instance. -/
theorem combinedPromise_coalescing (st : ProviderState)
    (observers : List Observer) (queries : List QueryIdentity)
    (p : CombinedPromise)
    (hstored : mapGet st.promises (generateQuerySetKey queries) = some p)
    (hkey : p.key = generateQuerySetKey queries)
    (hid : p.id ≠ st.nextId) :
    createCombinedPromise st observers queries = (p, st)
    ∧ mapGet ((resolveCombinedPromise st p).promises)
        (generateQuerySetKey queries) = none
    ∧ (createCombinedPromise (resolveCombinedPromise st p) observers
        queries).1.id = st.nextId
    ∧ (createCombinedPromise (resolveCombinedPromise st p) observers
        queries).1 ≠ p
    ∧ ((createCombinedPromise (resolveCombinedPromise st p) observers
        queries).2).nextId = st.nextId + 1 := by
  have hdel : mapGet ((resolveCombinedPromise st p).promises)
      (generateQuerySetKey queries) = none := by
    show mapGet (mapDelete st.promises p.key) (generateQuerySetKey queries)
      = none
    rw [hkey]
    exact mapGet_mapDelete_self ..
  have hfresh := @createCombinedPromise_of_none (resolveCombinedPromise st p)
    observers queries hdel
  refine ⟨@createCombinedPromise_of_some st observers queries p hstored,
    hdel, ?_, ?_, ?_⟩
  · rw [hfresh]
    rfl
  · rw [hfresh]
    intro he
    exact hid (congrArg CombinedPromise.id he).symm
  · rw [hfresh]
    rfl

/-- Witness for C3, on the promise stored by the first call on `engineXY`:
re-acquisition returns the identical instance, resolution deletes the
entry, and a post-resolution acquisition allocates a fresh instance. -/
theorem combinedPromise_coalescing_witness :
    createCombinedPromise stXY [] [qkX, qkY] = (pXY, stXY)
    ∧ mapGet ((resolveCombinedPromise stXY pXY).promises)
        (generateQuerySetKey [qkX, qkY]) = none
    ∧ (createCombinedPromise (resolveCombinedPromise stXY pXY) []
        [qkX, qkY]).1.id = stXY.nextId
    ∧ (createCombinedPromise (resolveCombinedPromise stXY pXY) []
        [qkX, qkY]).1 ≠ pXY
    ∧ ((createCombinedPromise (resolveCombinedPromise stXY pXY) []
        [qkX, qkY]).2).nextId = stXY.nextId + 1 :=
  combinedPromise_coalescing stXY [] [qkX, qkY] pXY (by decide) (by decide)
    (by decide)

/-- Claim C4 (amended): the completion promise thrown by a suspending call
is keyed by the query-set key derived from the call's input identities, but
when freshly created it awaits every observer in the post-registration pool
— including observers whose identities are outside the input set — and it
resolves only once all of those have reached success or error status. -/
theorem suspendPromise_awaits_all_pooled (engine : Engine)
    (st : ProviderState) (results : List SQResult) (suspendOnCreate : Bool)
    (p : CombinedPromise)
    (hp : (getQueryResult engine st results suspendOnCreate).1
      = QueryOutcome.suspend p)
    (hfresh : mapGet st.promises
      (generateQuerySetKey (results.map (fun r => r.queryKey))) = none) :
    p.key = generateQuerySetKey (results.map (fun r => r.queryKey))
    ∧ p.observers = (regRes engine st results).2.observers.map Prod.snd
    ∧ (promiseResolved engine p = true ↔
        ∀ ob ∈ (regRes engine st results).2.observers.map Prod.snd,
          observerSettled engine ob = true) := by
  rw [getQueryResult_eq_if] at hp
  by_cases h : suspendCond engine st results suspendOnCreate = true
  · rw [if_pos h] at hp
    have hfresh2 : mapGet ((regRes engine st results).2).promises
        (generateQuerySetKey (results.map (fun r => r.queryKey))) = none := by
      simp only [regRes]
      rw [register_promises_eq]
      exact hfresh
    rw [@createCombinedPromise_of_none (regRes engine st results).2
      ((regRes engine st results).2.observers.map Prod.snd)
      (results.map (fun r => r.queryKey)) hfresh2] at hp
    have hpe := (QueryOutcome.suspend.injEq ..).mp hp
    rw [← hpe]
    refine ⟨rfl, rfl, ?_⟩
    simp [promiseResolved, List.all_eq_true]
  · rw [if_neg h] at hp
    cases hge : getQueryError
        (((regRes engine st results).1.map (fun r => r.observer)).map
          (getCurrentResult engine)) results with
    | some e => rw [hge] at hp; simp at hp
    | none => rw [hge] at hp; simp at hp

/-- Witness for the amended C4: the promise thrown by the `x`-only call on
the `x`/`y` pool is keyed by the `x`-set key yet awaits both pooled
observers. -/
theorem suspendPromise_awaits_all_pooled_witness :
    pX3.key = generateQuerySetKey ([resX].map (fun r => r.queryKey))
    ∧ pX3.observers
        = (regRes engineXY stXY [resX]).2.observers.map Prod.snd
    ∧ (promiseResolved engineXY pX3 = true ↔
        ∀ ob ∈ (regRes engineXY stXY [resX]).2.observers.map Prod.snd,
          observerSettled engineXY ob = true) :=
  suspendPromise_awaits_all_pooled engineXY stXY [resX] false pX3 (by decide)
    (by decide)

/-- Counterexample to C4 as stated: in the concrete `x`/`y` scenario the
call referencing only `x` throws the promise `pX3`; every observer for an
input identity (only `x`) has settled, yet the promise has not resolved,
because it also awaits the pooled observer for `y`, whose identity is
outside the input set and which is still pending. -/
theorem suspendPromise_inputSet_counterexample :
    (getQueryResult engineXY stXY [resX] false).1 = QueryOutcome.suspend pX3
    ∧ observerSettled engineXY obsX = true
    ∧ obsY ∈ pX3.observers
    ∧ obsY.key ≠ getQueryKeyString qkX
    ∧ observerSettled engineXY obsY = false
    ∧ promiseResolved engineXY pX3 = false := by
  refine ⟨by decide, by decide, ?_, by decide, by decide, by decide⟩
  decide

theorem find?_eq_some_of_first {α : Type} (p : α → Bool) :
    ∀ (l : List α) (i : Nat) (x : α),
      l[i]? = some x → p x = true →
      (∀ j, j < i → ∀ y, l[j]? = some y → p y = false) →
      l.find? p = some x
  | [], i, x, hx, _, _ => by simp at hx
  | a :: t, 0, x, hx, hpx, _ => by
    rw [List.getElem?_cons_zero] at hx
    cases hx
    rw [List.find?_cons_of_pos _ hpx]
  | a :: t, i + 1, x, hx, hpx, hb => by
    have ha : p a = false :=
      hb 0 (Nat.succ_pos i) a (List.getElem?_cons_zero ..)
    rw [List.find?_cons_of_neg _ (by simp [ha])]
    refine find?_eq_some_of_first p t i x (by simpa using hx) hpx ?_
    intro j hj y hy
    exact hb (j + 1) (Nat.succ_lt_succ hj) y (by simpa using hy)

theorem find?_eq_none_of_all {α : Type} {p : α → Bool} {l : List α}
    (h : ∀ y ∈ l, p y = false) : l.find? p = none := by
  rw [List.find?_eq_none]
  intro x hx
  rw [h x hx]
  simp

/-- Claim C5: when a call does not suspend, error precedence is fixed: the
observers of the input identities are inspected in input order first, then
the input result objects in input order; the first error found wins. In
particular, if position `i`'s observer snapshot is in error and no earlier
observer snapshot is, that observer's error is thrown whatever errors the
input result objects carry; and if no observer snapshot is in error, the
first input result in error supplies the thrown error. -/
theorem getQueryResult_error_precedence (engine : Engine)
    (st : ProviderState) (results : List SQResult) (suspendOnCreate : Bool)
    (hns : suspendCond engine st results suspendOnCreate = false) :
    (∀ (i : Nat) (s : ObsResult) (e : String),
      (inputObserverResults engine st results)[i]? = some s →
      (∀ j, j < i → ∀ y,
        (inputObserverResults engine st results)[j]? = some y →
        y.isError = false) →
      s.isError = true → s.error = some e →
      (getQueryResult engine st results suspendOnCreate).1
        = QueryOutcome.raise e)
    ∧ ((∀ y ∈ inputObserverResults engine st results, y.isError = false) →
      ∀ (r : SQResult) (e : String),
        results.find? (fun q => q.isError) = some r → r.error = some e →
        (getQueryResult engine st results suspendOnCreate).1
          = QueryOutcome.raise e) := by
  rw [getQueryResult_eq_if, if_neg (by simp [hns])]
  constructor
  · intro i s e hi hbefore herr he
    have hfind : (inputObserverResults engine st results).find?
        (fun r => r.isError) = some s :=
      find?_eq_some_of_first _ (inputObserverResults engine st results) i s
        hi herr hbefore
    have hge : getQueryError
        (((regRes engine st results).1.map (fun r => r.observer)).map
          (getCurrentResult engine)) results = some e := by
      show getQueryError (inputObserverResults engine st results) results
        = some e
      rw [getQueryError, hfind]
      simp [Option.bind, he, Option.orElse]
    rw [hge]
  · intro hnone r e hr he
    have hfind : (inputObserverResults engine st results).find?
        (fun r => r.isError) = none := find?_eq_none_of_all hnone
    have hge : getQueryError
        (((regRes engine st results).1.map (fun r => r.observer)).map
          (getCurrentResult engine)) results = some e := by
      show getQueryError (inputObserverResults engine st results) results
        = some e
      rw [getQueryError, hfind, hr]
      simp [Option.bind, he, Option.orElse]
    rw [hge]

/-- Witness for C5: with watcher `a` in error (`boom`) and both presented
results carrying caller-side errors, the watcher's error wins; and with no
watcher errors but a presented result in error, that result's error
(`cerr`) is thrown. -/
theorem getQueryResult_error_precedence_witness :
    (getQueryResult engineE {} [resA, resB] false).1
      = QueryOutcome.raise "boom"
    ∧ (getQueryResult engineOK {} [rBerr] false).1
      = QueryOutcome.raise "cerr" := by
  constructor
  · exact (getQueryResult_error_precedence engineE {} [resA, resB] false
      (by decide)).1 0
      (getCurrentResult engineE
        { id := 0, key := getQueryKeyString ["a"]
          options := { inherited := some 1, queryKey := ["a"] } })
      "boom" (by decide)
      (fun j hj y hy => absurd hj (Nat.not_lt_zero j)) (by decide) (by decide)
  · exact (getQueryResult_error_precedence engineOK {} [rBerr] false
      (by decide)).2 (by decide) rBerr "cerr" (by decide) (by decide)

/-- Claim C6: when a call neither suspends nor raises, it returns exactly
the data of each input result, positionally: the output is `results.map
data`, it has the input's length, and its `i`-th element is the `i`-th
input's data. -/
theorem getQueryResult_order_preservation (engine : Engine)
    (st : ProviderState) (results : List SQResult) (suspendOnCreate : Bool)
    (hns : suspendCond engine st results suspendOnCreate = false)
    (hne : getQueryError (inputObserverResults engine st results) results
      = none) :
    (getQueryResult engine st results suspendOnCreate).1
      = QueryOutcome.ret (results.map (fun r => r.data))
    ∧ (results.map (fun r => r.data)).length = results.length
    ∧ ∀ i : Nat,
        (results.map (fun r => r.data))[i]?
          = (results[i]?).map (fun r => r.data) := by
  refine ⟨?_, List.length_map .., fun i => (List.getElem?_map ..).symm ▸ rfl⟩
  rw [getQueryResult_eq_if, if_neg (by simp [hns])]
  have hge : getQueryError
      (((regRes engine st results).1.map (fun r => r.observer)).map
        (getCurrentResult engine)) results = none := hne
  rw [hge]

/-- Witness for C6: two successful queries with data `1` and `2` return
`[some 1, some 2]`, and in the permuted call order `[some 2, some 1]`. -/
theorem getQueryResult_order_preservation_witness :
    (getQueryResult engineOK {} [rA1, rB2] false).1
      = QueryOutcome.ret [some 1, some 2]
    ∧ (getQueryResult engineOK {} [rB2, rA1] false).1
      = QueryOutcome.ret [some 2, some 1] :=
  ⟨(getQueryResult_order_preservation engineOK {} [rA1, rB2] false
      (by decide) (by decide)).1,
   (getQueryResult_order_preservation engineOK {} [rB2, rA1] false
      (by decide) (by decide)).1⟩

theorem clearCache_engine_apply (engine : Engine) (st : ProviderState)
    (status : ClearCacheStatus) (k : KeyStr) :
    (clearCache engine st status).2.1 k =
      if ((st.observers.map Prod.snd).filterMap (fun observer =>
          if matchesStatus status (engine observer.key).status then
            some observer.key
          else none)).contains k then
        resetCell (engine k)
      else engine k := rfl

/-- Claim C7: for either status argument, `clearCache` destroys every
pooled observer and empties the pool, leaves the query registry untouched,
and afterwards registering any previously-known identity (indeed any
identity) with only its query key creates a fresh observer. -/
theorem clearCache_teardown (engine : Engine) (st : ProviderState)
    (status : ClearCacheStatus) :
    ((clearCache engine st status).1).observers = []
    ∧ ((clearCache engine st status).1).destroyed
        = st.destroyed ++ (st.observers.map Prod.snd).map (fun o => o.id)
    ∧ ((clearCache engine st status).1).queries = st.queries
    ∧ ∀ (engine2 : Engine) (q : SQuery),
        (registerQueriesAndObservers engine2 (clearCache engine st status).1
          [q]).1
          = [{ created := true,
               observer := createObserver engine2 q.queryKey
                 ((clearCache engine st status).1).nextId }] := by
  refine ⟨rfl, rfl, rfl, ?_⟩
  intro engine2 q
  have hnone : mapGet ((clearCache engine st status).1).observers
      (getQueryKeyString q.queryKey) = none := rfl
  rw [register_cons, registerOne_of_none hnone]
  rfl

/-- Claim C8: `clearCache('error')` resets the underlying cache entries of
exactly the pooled identities whose query state is `error` at the moment of
the call: every key whose engine status is `success` (indeed any key not in
`error` status) keeps its cell — in particular its data — unchanged, every
pooled key in `error` status is reset, and the pool is emptied regardless. -/
theorem clearCache_error_selective (engine : Engine) (st : ProviderState) :
    (∀ k : KeyStr, (engine k).status = QStatus.success →
        (clearCache engine st ClearCacheStatus.error).2.1 k = engine k)
    ∧ (∀ ob ∈ st.observers.map Prod.snd,
        (engine ob.key).status = QStatus.error →
        (clearCache engine st ClearCacheStatus.error).2.1 ob.key
          = resetCell (engine ob.key))
    ∧ ((clearCache engine st ClearCacheStatus.error).1).observers = []
    ∧ (∀ k : KeyStr, (engine k).status ≠ QStatus.error →
        (clearCache engine st ClearCacheStatus.error).2.1 k = engine k) := by
  have hne : ∀ k : KeyStr, (engine k).status ≠ QStatus.error →
      (clearCache engine st ClearCacheStatus.error).2.1 k = engine k := by
    intro k hk
    rw [clearCache_engine_apply]
    have hc : ((st.observers.map Prod.snd).filterMap (fun observer =>
        if matchesStatus ClearCacheStatus.error (engine observer.key).status
        then some observer.key
        else none)).contains k = false := by
      rw [Bool.eq_false_iff]
      intro hmem
      rcases List.mem_filterMap.mp (List.elem_iff.mp hmem) with ⟨ob, _, hif⟩
      by_cases hm : matchesStatus ClearCacheStatus.error
          (engine ob.key).status = true
      · rw [if_pos hm] at hif
        have hkey : ob.key = k := Option.some.inj hif
        have herr : (engine ob.key).status = QStatus.error := by
          simpa [matchesStatus] using hm
        rw [hkey] at herr
        exact hk herr
      · rw [if_neg hm] at hif
        cases hif
    rw [hc]
    simp
  refine ⟨fun k hk => hne k (by rw [hk]; intro hc; cases hc), ?_, rfl, hne⟩
  intro ob hob herr
  rw [clearCache_engine_apply]
  have hc : ((st.observers.map Prod.snd).filterMap (fun observer =>
      if matchesStatus ClearCacheStatus.error (engine observer.key).status
      then some observer.key
      else none)).contains ob.key = true := by
    rw [List.elem_iff]
    exact List.mem_filterMap.mpr ⟨ob, hob, by simp [matchesStatus, herr]⟩
  rw [hc]
  simp

/-- Witness for C8: with `a` erroring and `b` successful, clearing with
status `error` resets `a`'s cell, leaves `b`'s cell (with its data)
unchanged, and empties the pool. -/
theorem clearCache_error_selective_witness :
    (clearCache engineE stE ClearCacheStatus.error).2.1
        (getQueryKeyString ["b"])
      = engineE (getQueryKeyString ["b"])
    ∧ (clearCache engineE stE ClearCacheStatus.error).2.1
        (getQueryKeyString ["a"])
      = resetCell (engineE (getQueryKeyString ["a"]))
    ∧ ((clearCache engineE stE ClearCacheStatus.error).1).observers = [] :=
  ⟨(clearCache_error_selective engineE stE).1 (getQueryKeyString ["b"])
      (by decide),
   (clearCache_error_selective engineE stE).2.1
      { id := 0, key := getQueryKeyString ["a"]
        options := { inherited := some 1, queryKey := ["a"] } }
      (by decide) (by decide),
   (clearCache_error_selective engineE stE).2.2.1⟩

/-- Claim C9: an observer created for an identity inherits its fetch
configuration from the engine's cached entry for that exact identity when
one exists, and otherwise receives exactly the configuration carried by the
presented result itself (its query key); registration uses `createObserver`
with the provider's allocation counter whenever the identity is not yet
pooled. -/
theorem createObserver_config_inheritance (engine : Engine)
    (qk : QueryIdentity) (freshId : Nat) :
    ((engine (getQueryKeyString qk)).cached = true →
      (createObserver engine qk freshId).options
        = { inherited := some (engine (getQueryKeyString qk)).options
            queryKey := qk })
    ∧ ((engine (getQueryKeyString qk)).cached = false →
      (createObserver engine qk freshId).options = resultCarriedConfig qk)
    ∧ ∀ (st : ProviderState) (query : SQuery),
        mapGet st.observers (getQueryKeyString query.queryKey) = none →
        (registerOne engine st query).1.observer
          = createObserver engine query.queryKey st.nextId := by
  refine ⟨?_, ?_, ?_⟩
  · intro h
    simp [createObserver, h]
  · intro h
    simp [createObserver, resultCarriedConfig, h]
  · intro st query h
    rw [registerOne_of_none h]

/-- Witness for C9: `x` is cached on `engineXY` with options `7`, so its
observer inherits them; `z` is not cached, so its observer receives only
the result-carried configuration. -/
theorem createObserver_config_inheritance_witness :
    (createObserver engineXY qkX 9).options
      = { inherited := some (engineXY (getQueryKeyString qkX)).options
          queryKey := qkX }
    ∧ (createObserver engineXY ["z"] 9).options = resultCarriedConfig ["z"] :=
  ⟨(createObserver_config_inheritance engineXY qkX 9).1 (by decide),
   (createObserver_config_inheritance engineXY ["z"] 9).2.1 (by decide)⟩

theorem promiseAll_error_of_mem :
    ∀ (outs : List (Except String Unit)) (e : String),
      Except.error e ∈ outs → ∃ e2, promiseAll outs = Except.error e2
  | [], e, h => absurd h (List.not_mem_nil _)
  | Except.ok _ :: rest, e, h => by
    have hr : Except.error e ∈ rest := by
      rcases List.mem_cons.mp h with he | hr
      · exact absurd he (by simp)
      · exact hr
    exact promiseAll_error_of_mem rest e hr
  | Except.error e2 :: _, _, _ => ⟨e2, rfl⟩

theorem notifyAfter_concat_set (l : List RefetchEvent) (f : NotifyFn) :
    notifyAfter (l ++ [RefetchEvent.setNotify f]) = f := by
  rw [notifyAfter, List.foldl_append]
  rfl

/-- Claim C10: if any individual refetch issued by `refetchQueries`
rejects, the combined result is a rejection that propagates to the caller,
and the default notify function is nevertheless restored (the event trace
ends with the restoring `setNotifyFunction` call, so the notify function in
force after the call is the default one). -/
theorem refetchQueries_restores_notify (st : ProviderState)
    (eff : RefetchEff) (q : SQuery) (e : String)
    (hq : q ∈ st.queries.map Prod.snd)
    (he : eff (getQueryKeyString q.queryKey) = Except.error e) :
    (∃ e2, (refetchQueries st eff).1 = Except.error e2)
    ∧ notifyAfter (refetchQueries st eff).2 = NotifyFn.batchedDefault
    ∧ ((refetchQueries st eff).2).getLast?
        = some (RefetchEvent.setNotify NotifyFn.batchedDefault) := by
  refine ⟨?_, ?_, ?_⟩
  · show ∃ e2,
      promiseAll (((st.queries.map Prod.snd).map
        (fun q => getQueryKeyString q.queryKey)).map eff) = Except.error e2
    apply promiseAll_error_of_mem _ e
    have hk := List.mem_map_of_mem
      (fun q : SQuery => getQueryKeyString q.queryKey) hq
    have hm := List.mem_map_of_mem eff hk
    rw [he] at hm
    exact hm
  · show notifyAfter (RefetchEvent.setNotify NotifyFn.silent ::
      (((st.queries.map Prod.snd).map
        (fun q => getQueryKeyString q.queryKey)).map RefetchEvent.refetch
        ++ [RefetchEvent.setNotify NotifyFn.batchedDefault]))
      = NotifyFn.batchedDefault
    rw [← List.cons_append]
    exact notifyAfter_concat_set ..
  · show (RefetchEvent.setNotify NotifyFn.silent ::
      (((st.queries.map Prod.snd).map
        (fun q => getQueryKeyString q.queryKey)).map RefetchEvent.refetch
        ++ [RefetchEvent.setNotify NotifyFn.batchedDefault])).getLast?
      = some (RefetchEvent.setNotify NotifyFn.batchedDefault)
    rw [← List.cons_append]
    exact List.getLast?_concat ..

/-- Witness for C10: with one registered query and a rejecting refetch
effect, the call rejects and the trace still restores the default notify
function. -/
theorem refetchQueries_restores_notify_witness :
    (∃ e2, (refetchQueries stQ effFail).1 = Except.error e2)
    ∧ notifyAfter (refetchQueries stQ effFail).2 = NotifyFn.batchedDefault
    ∧ ((refetchQueries stQ effFail).2).getLast?
        = some (RefetchEvent.setNotify NotifyFn.batchedDefault) :=
  refetchQueries_restores_notify stQ effFail { queryKey := ["q"] } "net"
    (by decide) rfl

end ScreenQuery
